import Mathlib

/-!
A shallow embedding of the venn program (src/main.rs) and proofs about it.

Modelling conventions:
* `f32` coordinates and radii are embedded as `ℚ`.
* `nalgebra::distance(p, c) < r` is embedded as the equivalent (for `0 ≤ r`)
  squared comparison `distSq p c < r ^ 2`, keeping every definition
  executable; the link with the square-root formulation is proved as a
  theorem.
* `rand::Rng::gen_range(lo, hi)` draws from the half-open range `[lo, hi)`;
  it is embedded as `genRange lo hi n = lo + n % (hi - lo)` where `n` is the
  next raw output of the injected randomness stream `rng : ℕ → ℕ`.  The
  `random` constructors return `Option`, with `none` for the `panic!` arm.
* Rust `panic!` sites (the `_ => panic!` arms and the two
  `self.shapes[index]` indexing expressions reachable with an out-of-range
  `drag_index`) are modelled by `Option`, with `none` for a panic.
* Render-only data (the `coffee::graphics::Color` constants, the `color`
  field of `VennCircle`, and all `draw` methods) and the raw event
  translation in `VennInput::update` are omitted: no claim mentions them and
  they feed no state read by `interact` or `load`.
-/

/-- A 2-D point (`coffee::graphics::Point`), coordinates embedded as `ℚ`. -/
structure Point where
  x : ℚ
  y : ℚ
deriving DecidableEq

/-- Squared Euclidean distance between two points. -/
def distSq (p q : Point) : ℚ :=
  (p.x - q.x) ^ 2 + (p.y - q.y) ^ 2

/-- The per-tick input snapshot (`VennInput`, src/main.rs lines 56-60). -/
structure VennInput where
  cursor_position : Point
  is_cursor_taken : Bool
  is_mouse_pressed : Bool
deriving DecidableEq

/-- `VennColor` (src/main.rs lines 166-171). -/
inductive VennColor where
  | Yellow
  | Blue
  | Purple
deriving DecidableEq

/-- `VennSize` (src/main.rs lines 198-203). -/
inductive VennSize where
  | Small
  | Medium
  | Large
deriving DecidableEq

/-- `VennShape` (src/main.rs lines 220-225). -/
inductive VennShape where
  | Circle
  | Triangle
  | Square
deriving DecidableEq

/-- `VennColor::all` (src/main.rs lines 184-186). -/
def VennColor.all : List VennColor :=
  [VennColor.Yellow, VennColor.Blue, VennColor.Purple]

/-- `VennSize::all` (src/main.rs lines 206-208). -/
def VennSize.all : List VennSize :=
  [VennSize.Small, VennSize.Medium, VennSize.Large]

/-- `VennShape::all` (src/main.rs lines 228-230).  Note the order:
Circle, Square, Triangle. -/
def VennShape.all : List VennShape :=
  [VennShape.Circle, VennShape.Square, VennShape.Triangle]

/-- `rand::Rng::gen_range(lo, hi)`: a draw from the half-open range
`[lo, hi)`, driven by the raw stream value `n`. -/
def genRange (lo hi n : ℕ) : ℕ :=
  lo + n % (hi - lo)

/-- `VennColor::random` (src/main.rs lines 188-195): `gen_range(0, 2)`
followed by a match with arms 0, 1, 2 and a `panic!` default (`none`). -/
def VennColor.random (n : ℕ) : Option VennColor :=
  match genRange 0 2 n with
  | 0 => some VennColor.Yellow
  | 1 => some VennColor.Blue
  | 2 => some VennColor.Purple
  | _ => none

/-- `VennSize::random` (src/main.rs lines 210-217). -/
def VennSize.random (n : ℕ) : Option VennSize :=
  match genRange 0 2 n with
  | 0 => some VennSize.Small
  | 1 => some VennSize.Medium
  | 2 => some VennSize.Large
  | _ => none

/-- `VennShape::random` (src/main.rs lines 232-239): arm 1 is Square,
arm 2 is Triangle. -/
def VennShape.random (n : ℕ) : Option VennShape :=
  match genRange 0 2 n with
  | 0 => some VennShape.Circle
  | 1 => some VennShape.Square
  | 2 => some VennShape.Triangle
  | _ => none

/-- `VennTarget` (src/main.rs lines 103-107), field order as in the source. -/
structure VennTarget where
  color : VennColor
  shape : VennShape
  size : VennSize
deriving DecidableEq

/-- `VennAnswer` (src/main.rs lines 109-115): the rectangular answer slot. -/
structure VennAnswer where
  width : ℚ
  height : ℚ
  center : Point
  hover : Bool
  target : VennTarget
deriving DecidableEq

/-- `VennAnswer::contains` (src/main.rs lines 144-153): strict containment
in the axis-aligned rectangle. -/
def VennAnswer.contains (a : VennAnswer) (p : Point) : Bool :=
  decide (p.x > a.center.x - a.width / 2) && decide (p.x < a.center.x + a.width / 2)
    && decide (p.y > a.center.y - a.height / 2) && decide (p.y < a.center.y + a.height / 2)

/-- `VennAnswer::matches` (src/main.rs lines 155-163): shape equality AND
color equality (the size comparison is commented out in the source; the
connective between the shape and the color test is `&&`). -/
def VennAnswer.«matches» (a : VennAnswer) (target : VennTarget) : Bool :=
  decide (a.target.shape = target.shape) && decide (a.target.color = target.color)

/-- `VennGuess` (src/main.rs lines 242-248): a draggable token.  The
tri-state verdict field `matches` is `Option Bool`: `none` = Unset,
`some true` = Match, `some false` = Mismatch. -/
structure VennGuess where
  center : Point
  radius : ℚ
  dragged : Bool
  target : VennTarget
  «matches» : Option Bool
deriving DecidableEq

/-- `VennGuess::new` (src/main.rs lines 251-259). -/
def VennGuess.new (i : ℕ) (shape : VennShape) (color : VennColor) (size : VennSize) :
    VennGuess :=
  { center := ⟨20, ((i : ℚ) + 1) * 40⟩
    radius := 30
    dragged := false
    target := { color := color, shape := shape, size := size }
    «matches» := none }

/-- `VennGuess::drag_to` (src/main.rs lines 261-264). -/
def VennGuess.drag_to (g : VennGuess) (p : Point) : VennGuess :=
  { g with dragged := true, center := p }

/-- `VennGuess::contains` (src/main.rs lines 266-271):
`distance(point, center) < radius`, embedded as a squared comparison. -/
def VennGuess.contains (g : VennGuess) (p : Point) : Bool :=
  decide (distSq p g.center < g.radius ^ 2)

/-- `VennCircle` (src/main.rs lines 323-329): a membership region.  The
render-only `color` field is omitted; the region holds no target of its
own, only its answer slot does. -/
structure VennCircle where
  center : Point
  radius : ℚ
  selected : Bool
  answer : VennAnswer
deriving DecidableEq

/-- `VennCircle::contains` (src/main.rs lines 378-383). -/
def VennCircle.contains (c : VennCircle) (p : Point) : Bool :=
  decide (distSq p c.center < c.radius ^ 2)

/-- `VennCircle::interact` (src/main.rs lines 385-390): `selected` is set to
false and then to true when the cursor is inside, i.e. recomputed as the
containment test. -/
def VennCircle.interact (c : VennCircle) (input : VennInput) : VennCircle :=
  { c with selected := c.contains input.cursor_position }

/-- `VennCircle::matches` (src/main.rs lines 392-401): the region matcher
reads `self.answer.target` and uses shape equality OR color equality. -/
def VennCircle.«matches» (c : VennCircle) (target : VennTarget) : Bool :=
  decide (c.answer.target.shape = target.shape) || decide (c.answer.target.color = target.color)

/-- Helper: replace a region's answer-slot `hover` flag
(`self.left.answer.hover = ...` in the source). -/
def VennCircle.withHover (c : VennCircle) (b : Bool) : VennCircle :=
  { c with answer := { c.answer with hover := b } }

/-- The scene (`Venn`, src/main.rs lines 403-408). -/
structure Venn where
  left : VennCircle
  right : VennCircle
  shapes : List VennGuess
  drag_index : Option ℕ
deriving DecidableEq

/-- `WIDTH` (src/main.rs line 10). -/
def WIDTH : ℚ := 800

/-- `HEIGHT` (src/main.rs line 11). -/
def HEIGHT : ℚ := 600

/-- `x_margin` in `Venn::load` (src/main.rs line 416). -/
def x_margin : ℚ := 10

/-- `y_margin` in `Venn::load` (src/main.rs line 417). -/
def y_margin : ℚ := 10

/-- `remaining_x` in `Venn::load` (src/main.rs line 418). -/
def remaining_x : ℚ := WIDTH - x_margin * 2

/-- `remaining_y` in `Venn::load` (src/main.rs line 419). -/
def remaining_y : ℚ := HEIGHT - y_margin * 2

/-- `left_center` in `Venn::load` (src/main.rs lines 433-434). -/
def left_center : Point :=
  ⟨x_margin + remaining_x / 3, y_margin + remaining_y / 2⟩

/-- `left_answer_center` in `Venn::load` (src/main.rs lines 435-436). -/
def left_answer_center : Point :=
  ⟨left_center.x, left_center.y - 200 - 40 - 15⟩

/-- `right_center` in `Venn::load` (src/main.rs lines 437-440). -/
def right_center : Point :=
  ⟨WIDTH - x_margin - remaining_x / 3, HEIGHT - y_margin - remaining_y / 2⟩

/-- `right_answer_center` in `Venn::load` (src/main.rs lines 441-442). -/
def right_answer_center : Point :=
  ⟨right_center.x, right_center.y - 200 - 40 - 15⟩

/-- The token tray built in `Venn::load` (src/main.rs lines 422-432): the
cartesian product of `VennShape::all` and `VennColor::all` (size fixed to
`Small`), indexed by creation order. -/
def trayShapes : List VennGuess :=
  (VennShape.all.flatMap (fun shape => VennColor.all.map (fun color => (shape, color)))).enum.map
    (fun ic => VennGuess.new ic.1 ic.2.1 ic.2.2 VennSize.Small)

/-- `Venn::load` (src/main.rs lines 415-482).  The six `gen_range(0, 2)`
draws consume the raw stream values `rng 0`..`rng 5` in source evaluation
order: left shape, left size, left color, right shape, right size,
right color. -/
def Venn.load (rng : ℕ → ℕ) : Option Venn := do
  let ls ← VennShape.random (rng 0)
  let lz ← VennSize.random (rng 1)
  let lc ← VennColor.random (rng 2)
  let rs ← VennShape.random (rng 3)
  let rz ← VennSize.random (rng 4)
  let rc ← VennColor.random (rng 5)
  some
    { left :=
        { center := left_center
          radius := 200
          selected := false
          answer :=
            { width := 100
              height := 80
              center := left_answer_center
              hover := false
              target := { color := lc, shape := ls, size := lz } } }
      right :=
        { center := right_center
          radius := 200
          selected := false
          answer :=
            { width := 100
              height := 80
              center := right_answer_center
              hover := false
              target := { color := rc, shape := rs, size := rz } } }
      shapes := trayShapes
      drag_index := none }

/-- The pointer-down hit test over the tray (src/main.rs lines 501-508):
`iter_mut().enumerate().rev()` visits the tokens in reverse creation order
and stops at the first token containing the cursor; the returned index is
therefore the greatest index whose token contains the point. -/
def hitTestRev (shapes : List VennGuess) (p : Point) : Option ℕ :=
  match shapes with
  | [] => none
  | s :: rest =>
    match hitTestRev rest p with
    | some j => some (j + 1)
    | none => if s.contains p then some 0 else none

/-- In-place update of one list element (Rust mutation through an index). -/
def modifyAt (l : List VennGuess) (i : ℕ) (f : VennGuess → VennGuess) :
    List VennGuess :=
  match l, i with
  | [], _ => []
  | x :: xs, 0 => f x :: xs
  | x :: xs, n + 1 => x :: modifyAt xs n f

/-- The release-time evaluator (src/main.rs lines 524-555): the four-way
containment tuple match.  `dragged` is cleared by the caller, as in the
source (line 556). -/
def evalRelease (left right : VennCircle) (s : VennGuess) : VennGuess :=
  match left.contains s.center, right.contains s.center,
      left.answer.contains s.center, right.answer.contains s.center with
  | true, true, _, _ =>
      { s with «matches» := some (left.«matches» s.target && right.«matches» s.target) }
  | true, false, _, _ => { s with «matches» := some (left.«matches» s.target) }
  | false, true, _, _ => { s with «matches» := some (right.«matches» s.target) }
  | false, false, true, false =>
      { s with «matches» := some (left.answer.«matches» s.target), center := left.answer.center }
  | false, false, false, true =>
      { s with «matches» := some (right.answer.«matches» s.target), center := right.answer.center }
  | false, false, _, _ => { s with «matches» := none }

/-- `Venn::interact` (src/main.rs lines 495-562), one tick.  `none` models
the panic of an out-of-range `self.shapes[index]` access. -/
def Venn.interact (v : Venn) (input : VennInput) : Option Venn :=
  let left := v.left.interact input
  let right := v.right.interact input
  if input.is_mouse_pressed then
    match v.drag_index with
    | none =>
      match hitTestRev v.shapes input.cursor_position with
      | some i =>
        some
          { left := left.withHover (left.answer.contains input.cursor_position)
            right := right.withHover (right.answer.contains input.cursor_position)
            shapes := modifyAt v.shapes i
              (fun s => VennGuess.drag_to { s with «matches» := none } input.cursor_position)
            drag_index := some i }
      | none =>
        some { left := left, right := right, shapes := v.shapes, drag_index := none }
    | some i =>
      if i < v.shapes.length then
        some
          { left := left.withHover (left.answer.contains input.cursor_position)
            right := right.withHover (right.answer.contains input.cursor_position)
            shapes := modifyAt v.shapes i (fun s => s.drag_to input.cursor_position)
            drag_index := some i }
      else none
  else
    let left := left.withHover false
    let right := right.withHover false
    match v.drag_index with
    | none =>
      some { left := left, right := right, shapes := v.shapes, drag_index := none }
    | some i =>
      if i < v.shapes.length then
        some
          { left := left
            right := right
            shapes := modifyAt v.shapes i
              (fun s => { evalRelease left right s with dragged := false })
            drag_index := none }
      else none

/-- A sequence of ticks; `none` as soon as one tick panics. -/
def stepAll (v : Venn) : List VennInput → Option Venn
  | [] => some v
  | input :: rest => (v.interact input).bind (fun w => stepAll w rest)

/-! ### Basic facts about the per-tick helpers -/

@[simp]
theorem VennCircle.contains_withHover (c : VennCircle) (b : Bool) (p : Point) :
    (c.withHover b).contains p = c.contains p := rfl

@[simp]
theorem VennCircle.contains_interact (c : VennCircle) (input : VennInput) (p : Point) :
    (c.interact input).contains p = c.contains p := rfl

@[simp]
theorem VennCircle.answer_contains_withHover (c : VennCircle) (b : Bool) (p : Point) :
    (c.withHover b).answer.contains p = c.answer.contains p := rfl

@[simp]
theorem VennCircle.answer_contains_interact (c : VennCircle) (input : VennInput) (p : Point) :
    (c.interact input).answer.contains p = c.answer.contains p := rfl

@[simp]
theorem VennCircle.matches_withHover (c : VennCircle) (b : Bool) (t : VennTarget) :
    (c.withHover b).«matches» t = c.«matches» t := rfl

@[simp]
theorem VennCircle.matches_interact (c : VennCircle) (input : VennInput) (t : VennTarget) :
    (c.interact input).«matches» t = c.«matches» t := rfl

@[simp]
theorem VennCircle.answer_matches_withHover (c : VennCircle) (b : Bool) (t : VennTarget) :
    (c.withHover b).answer.«matches» t = c.answer.«matches» t := rfl

@[simp]
theorem VennCircle.answer_matches_interact (c : VennCircle) (input : VennInput) (t : VennTarget) :
    (c.interact input).answer.«matches» t = c.answer.«matches» t := rfl

@[simp]
theorem VennCircle.center_withHover (c : VennCircle) (b : Bool) :
    (c.withHover b).center = c.center := rfl

@[simp]
theorem VennCircle.center_interact (c : VennCircle) (input : VennInput) :
    (c.interact input).center = c.center := rfl

@[simp]
theorem VennCircle.radius_withHover (c : VennCircle) (b : Bool) :
    (c.withHover b).radius = c.radius := rfl

@[simp]
theorem VennCircle.radius_interact (c : VennCircle) (input : VennInput) :
    (c.interact input).radius = c.radius := rfl

@[simp]
theorem VennCircle.answer_target_withHover (c : VennCircle) (b : Bool) :
    (c.withHover b).answer.target = c.answer.target := rfl

@[simp]
theorem VennCircle.answer_target_interact (c : VennCircle) (input : VennInput) :
    (c.interact input).answer.target = c.answer.target := rfl

@[simp]
theorem VennCircle.answer_center_withHover (c : VennCircle) (b : Bool) :
    (c.withHover b).answer.center = c.answer.center := rfl

@[simp]
theorem VennCircle.answer_center_interact (c : VennCircle) (input : VennInput) :
    (c.interact input).answer.center = c.answer.center := rfl

@[simp]
theorem VennCircle.answer_width_withHover (c : VennCircle) (b : Bool) :
    (c.withHover b).answer.width = c.answer.width := rfl

@[simp]
theorem VennCircle.answer_width_interact (c : VennCircle) (input : VennInput) :
    (c.interact input).answer.width = c.answer.width := rfl

@[simp]
theorem VennCircle.answer_height_withHover (c : VennCircle) (b : Bool) :
    (c.withHover b).answer.height = c.answer.height := rfl

@[simp]
theorem VennCircle.answer_height_interact (c : VennCircle) (input : VennInput) :
    (c.interact input).answer.height = c.answer.height := rfl

/-- `evalRelease` only reads the geometry and targets of the two regions, so
the `selected` and `hover` recomputations of the same tick do not affect it. -/
theorem evalRelease_withHover_interact (v : Venn) (input : VennInput) (s : VennGuess) :
    evalRelease ((v.left.interact input).withHover false)
      ((v.right.interact input).withHover false) s = evalRelease v.left v.right s := by
  simp only [evalRelease, VennCircle.contains_withHover, VennCircle.contains_interact,
    VennCircle.answer_contains_withHover, VennCircle.answer_contains_interact,
    VennCircle.matches_withHover, VennCircle.matches_interact,
    VennCircle.answer_matches_withHover, VennCircle.answer_matches_interact,
    VennCircle.answer_center_withHover, VennCircle.answer_center_interact]

/-! ### Facts about `modifyAt` -/

@[simp]
theorem length_modifyAt (l : List VennGuess) (i : ℕ) (f : VennGuess → VennGuess) :
    (modifyAt l i f).length = l.length := by
  induction l generalizing i with
  | nil => rfl
  | cons x xs ih =>
    cases i with
    | zero => rfl
    | succ n => simpa [modifyAt] using ih n

theorem getElem?_modifyAt_self (l : List VennGuess) (i : ℕ) (f : VennGuess → VennGuess) :
    (modifyAt l i f)[i]? = (l[i]?).map f := by
  induction l generalizing i with
  | nil => cases i <;> rfl
  | cons x xs ih =>
    cases i with
    | zero => simp [modifyAt]
    | succ n => simpa [modifyAt] using ih n

theorem getElem?_modifyAt_ne (l : List VennGuess) (i j : ℕ) (f : VennGuess → VennGuess)
    (h : j ≠ i) : (modifyAt l i f)[j]? = l[j]? := by
  induction l generalizing i j with
  | nil => cases i <;> rfl
  | cons x xs ih =>
    cases i with
    | zero =>
      cases j with
      | zero => exact absurd rfl h
      | succ m => simp [modifyAt]
    | succ n =>
      cases j with
      | zero => simp [modifyAt]
      | succ m =>
        simp only [modifyAt, List.getElem?_cons_succ]
        exact ih n m (fun hm => h (by omega))

/-! ### Facts about the reverse-order hit test -/

theorem hitTestRev_lt (shapes : List VennGuess) (p : Point) (i : ℕ)
    (h : hitTestRev shapes p = some i) : i < shapes.length := by
  induction shapes generalizing i with
  | nil => simp [hitTestRev] at h
  | cons s rest ih =>
    simp only [hitTestRev] at h
    cases hr : hitTestRev rest p with
    | some j =>
      rw [hr] at h
      cases h
      exact Nat.succ_lt_succ (ih j hr)
    | none =>
      rw [hr] at h
      by_cases hc : s.contains p = true
      · simp only [hc, if_true, Option.some.injEq] at h
        subst h
        simp
      · simp [hc] at h

theorem hitTestRev_contains (shapes : List VennGuess) (p : Point) (i : ℕ)
    (h : hitTestRev shapes p = some i) :
    ∃ s, shapes[i]? = some s ∧ s.contains p = true := by
  induction shapes generalizing i with
  | nil => simp [hitTestRev] at h
  | cons s rest ih =>
    simp only [hitTestRev] at h
    cases hr : hitTestRev rest p with
    | some j =>
      rw [hr] at h
      cases h
      simpa using ih j hr
    | none =>
      rw [hr] at h
      by_cases hc : s.contains p = true
      · simp only [hc, if_true, Option.some.injEq] at h
        subst h
        exact ⟨s, by simp, hc⟩
      · simp [hc] at h

theorem hitTestRev_none_aux (shapes : List VennGuess) (p : Point) :
    hitTestRev shapes p = none →
      ∀ (j : ℕ) (t : VennGuess), shapes[j]? = some t → t.contains p = false := by
  induction shapes with
  | nil => intro _ j t hjt; simp at hjt
  | cons s rest ih =>
    intro h j t hjt
    simp only [hitTestRev] at h
    cases hr : hitTestRev rest p with
    | some k => rw [hr] at h; cases h
    | none =>
      rw [hr] at h
      by_cases hc : s.contains p = true
      · simp [hc] at h
      · cases j with
        | zero =>
          simp only [List.getElem?_cons_zero, Option.some.injEq] at hjt
          subst hjt
          simpa using hc
        | succ m =>
          simp only [List.getElem?_cons_succ] at hjt
          exact ih hr m t hjt

theorem hitTestRev_max (shapes : List VennGuess) (p : Point) (i : ℕ)
    (h : hitTestRev shapes p = some i) :
    ∀ (j : ℕ) (t : VennGuess), i < j → shapes[j]? = some t → t.contains p = false := by
  induction shapes generalizing i with
  | nil => simp [hitTestRev] at h
  | cons s rest ih =>
    simp only [hitTestRev] at h
    intro j t hij hjt
    cases hr : hitTestRev rest p with
    | some k =>
      rw [hr] at h
      cases h
      cases j with
      | zero => omega
      | succ m =>
        simp only [List.getElem?_cons_succ] at hjt
        exact ih k hr m t (by omega) hjt
    | none =>
      rw [hr] at h
      by_cases hc : s.contains p = true
      · simp only [hc, if_true, Option.some.injEq] at h
        subst h
        cases j with
        | zero => omega
        | succ m =>
          simp only [List.getElem?_cons_succ] at hjt
          exact hitTestRev_none_aux rest p hr m t hjt
      · simp [hc] at h

/-! ### Case analysis of one `interact` tick -/

theorem interact_press_none_hit (v : Venn) (input : VennInput) (i : ℕ)
    (hp : input.is_mouse_pressed = true) (hd : v.drag_index = none)
    (hh : hitTestRev v.shapes input.cursor_position = some i) :
    v.interact input = some
      { left := (v.left.interact input).withHover
          ((v.left.interact input).answer.contains input.cursor_position)
        right := (v.right.interact input).withHover
          ((v.right.interact input).answer.contains input.cursor_position)
        shapes := modifyAt v.shapes i
          (fun s => VennGuess.drag_to { s with «matches» := none } input.cursor_position)
        drag_index := some i } := by
  simp only [Venn.interact, hp, hd, hh, if_true]

theorem interact_press_none_miss (v : Venn) (input : VennInput)
    (hp : input.is_mouse_pressed = true) (hd : v.drag_index = none)
    (hh : hitTestRev v.shapes input.cursor_position = none) :
    v.interact input = some
      { left := v.left.interact input
        right := v.right.interact input
        shapes := v.shapes
        drag_index := none } := by
  simp only [Venn.interact, hp, hd, hh, if_true]

theorem interact_press_some (v : Venn) (input : VennInput) (i : ℕ)
    (hp : input.is_mouse_pressed = true) (hd : v.drag_index = some i)
    (hlen : i < v.shapes.length) :
    v.interact input = some
      { left := (v.left.interact input).withHover
          ((v.left.interact input).answer.contains input.cursor_position)
        right := (v.right.interact input).withHover
          ((v.right.interact input).answer.contains input.cursor_position)
        shapes := modifyAt v.shapes i (fun s => s.drag_to input.cursor_position)
        drag_index := some i } := by
  simp only [Venn.interact, hp, hd, hlen, if_true]

theorem interact_release_none (v : Venn) (input : VennInput)
    (hp : input.is_mouse_pressed = false) (hd : v.drag_index = none) :
    v.interact input = some
      { left := (v.left.interact input).withHover false
        right := (v.right.interact input).withHover false
        shapes := v.shapes
        drag_index := none } := by
  simp only [Venn.interact, hp, hd, Bool.false_eq_true, if_false]

theorem interact_release_some (v : Venn) (input : VennInput) (i : ℕ)
    (hp : input.is_mouse_pressed = false) (hd : v.drag_index = some i)
    (hlen : i < v.shapes.length) :
    v.interact input = some
      { left := (v.left.interact input).withHover false
        right := (v.right.interact input).withHover false
        shapes := modifyAt v.shapes i
          (fun s => { evalRelease ((v.left.interact input).withHover false)
              ((v.right.interact input).withHover false) s with dragged := false })
        drag_index := none } := by
  simp only [Venn.interact, hp, hd, hlen, Bool.false_eq_true, if_false, if_true]

/-! ### The single-active-drag invariant -/

/-- At most one token is dragged, and the drag index tracks it: with no
active drag index every token has `dragged = false`; with index `i`, the
index is in range and a token is dragged exactly when it is token `i`. -/
def dragInv (v : Venn) : Prop :=
  match v.drag_index with
  | none => ∀ (j : ℕ) (s : VennGuess), v.shapes[j]? = some s → s.dragged = false
  | some i => i < v.shapes.length ∧
      ∀ (j : ℕ) (s : VennGuess), v.shapes[j]? = some s → (s.dragged = true ↔ j = i)

theorem mod_two_cases (n : ℕ) : n % 2 = 0 ∨ n % 2 = 1 :=
  Nat.mod_two_eq_zero_or_one n

theorem shape_random_isSome (n : ℕ) : ∃ c, VennShape.random n = some c := by
  rcases mod_two_cases n with h | h
  · exact ⟨VennShape.Circle, by simp [VennShape.random, genRange, h]⟩
  · exact ⟨VennShape.Square, by simp [VennShape.random, genRange, h]⟩

theorem size_random_isSome (n : ℕ) : ∃ c, VennSize.random n = some c := by
  rcases mod_two_cases n with h | h
  · exact ⟨VennSize.Small, by simp [VennSize.random, genRange, h]⟩
  · exact ⟨VennSize.Medium, by simp [VennSize.random, genRange, h]⟩

theorem color_random_isSome (n : ℕ) : ∃ c, VennColor.random n = some c := by
  rcases mod_two_cases n with h | h
  · exact ⟨VennColor.Yellow, by simp [VennColor.random, genRange, h]⟩
  · exact ⟨VennColor.Blue, by simp [VennColor.random, genRange, h]⟩

theorem trayShapes_dragged (j : ℕ) (s : VennGuess) (hj : trayShapes[j]? = some s) :
    s.dragged = false := by
  have hmem : s ∈ trayShapes := List.getElem?_mem hj
  have hall : trayShapes.all (fun s => !s.dragged) = true := by rfl
  have := List.all_eq_true.mp hall s hmem
  simpa using this

theorem load_shapes_drag (rng : ℕ → ℕ) (v : Venn) (h : Venn.load rng = some v) :
    v.shapes = trayShapes ∧ v.drag_index = none := by
  obtain ⟨ls, hls⟩ := shape_random_isSome (rng 0)
  obtain ⟨lz, hlz⟩ := size_random_isSome (rng 1)
  obtain ⟨lc, hlc⟩ := color_random_isSome (rng 2)
  obtain ⟨rs, hrs⟩ := shape_random_isSome (rng 3)
  obtain ⟨rz, hrz⟩ := size_random_isSome (rng 4)
  obtain ⟨rc, hrc⟩ := color_random_isSome (rng 5)
  simp only [Venn.load, hls, hlz, hlc, hrs, hrz, hrc, Option.bind_eq_bind,
    Option.some_bind, Option.some.injEq] at h
  subst h
  exact ⟨rfl, rfl⟩

theorem load_dragInv (rng : ℕ → ℕ) (v : Venn) (h : Venn.load rng = some v) :
    dragInv v := by
  obtain ⟨hs, hd⟩ := load_shapes_drag rng v h
  simp only [dragInv, hd, hs]
  exact trayShapes_dragged

theorem interact_dragInv (v : Venn) (input : VennInput) (v' : Venn)
    (hv : dragInv v) (h : v.interact input = some v') : dragInv v' := by
  by_cases hp : input.is_mouse_pressed = true
  · cases hd : v.drag_index with
    | none =>
      cases hh : hitTestRev v.shapes input.cursor_position with
      | some i =>
        rw [interact_press_none_hit v input i hp hd hh] at h
        have hi : i < v.shapes.length := hitTestRev_lt v.shapes input.cursor_position i hh
        cases h
        simp only [dragInv, length_modifyAt]
        refine ⟨hi, ?_⟩
        intro j s hj
        by_cases hji : j = i
        · subst hji
          rw [getElem?_modifyAt_self] at hj
          simp only [Option.map_eq_some'] at hj
          obtain ⟨t, _, rfl⟩ := hj
          simp [VennGuess.drag_to]
        · rw [getElem?_modifyAt_ne v.shapes i j _ hji] at hj
          have hfalse : s.dragged = false := by
            have hv0 := hv
            simp only [dragInv, hd] at hv0
            exact hv0 j s hj
          simp [hfalse, hji]
      | none =>
        rw [interact_press_none_miss v input hp hd hh] at h
        cases h
        simp only [dragInv]
        intro j s hj
        have hv0 := hv
        simp only [dragInv, hd] at hv0
        exact hv0 j s hj
    | some i =>
      have hv0 := hv
      simp only [dragInv, hd] at hv0
      obtain ⟨hi, hiff⟩ := hv0
      rw [interact_press_some v input i hp hd hi] at h
      cases h
      simp only [dragInv, length_modifyAt]
      refine ⟨hi, ?_⟩
      intro j s hj
      by_cases hji : j = i
      · subst hji
        rw [getElem?_modifyAt_self] at hj
        simp only [Option.map_eq_some'] at hj
        obtain ⟨t, _, rfl⟩ := hj
        simp [VennGuess.drag_to]
      · rw [getElem?_modifyAt_ne v.shapes i j _ hji] at hj
        have := hiff j s hj
        simpa [hji] using this
  · have hp' : input.is_mouse_pressed = false := by
      cases hb : input.is_mouse_pressed
      · rfl
      · exact absurd hb hp
    cases hd : v.drag_index with
    | none =>
      rw [interact_release_none v input hp' hd] at h
      cases h
      simp only [dragInv]
      intro j s hj
      have hv0 := hv
      simp only [dragInv, hd] at hv0
      exact hv0 j s hj
    | some i =>
      have hv0 := hv
      simp only [dragInv, hd] at hv0
      obtain ⟨hi, hiff⟩ := hv0
      rw [interact_release_some v input i hp' hd hi] at h
      cases h
      simp only [dragInv]
      intro j s hj
      by_cases hji : j = i
      · subst hji
        rw [getElem?_modifyAt_self] at hj
        simp only [Option.map_eq_some'] at hj
        obtain ⟨t, _, rfl⟩ := hj
        rfl
      · rw [getElem?_modifyAt_ne v.shapes i j _ hji] at hj
        have := hiff j s hj
        simpa [hji] using this

theorem stepAll_dragInv (inputs : List VennInput) (v w : Venn) (hv : dragInv v)
    (h : stepAll v inputs = some w) : dragInv w := by
  induction inputs generalizing v with
  | nil =>
    simp only [stepAll, Option.some.injEq] at h
    subst h
    exact hv
  | cons input rest ih =>
    simp only [stepAll] at h
    cases hstep : v.interact input with
    | none => rw [hstep] at h; cases h
    | some u =>
      rw [hstep] at h
      simp only [Option.some_bind] at h
      exact ih u (interact_dragInv v input u hv hstep) h

/-! ### Counting dragged tokens -/

theorem countP_dragged_eq_zero (l : List VennGuess)
    (h : ∀ (j : ℕ) (s : VennGuess), l[j]? = some s → s.dragged = false) :
    l.countP (fun s => s.dragged) = 0 := by
  induction l with
  | nil => rfl
  | cons x xs ih =>
    have hx := h 0 x (by simp)
    rw [List.countP_cons]
    simp [hx, ih (fun j s hj => h (j + 1) s (by simpa using hj))]

theorem countP_dragged_eq_one (l : List VennGuess) (i : ℕ) (hi : i < l.length)
    (h : ∀ (j : ℕ) (s : VennGuess), l[j]? = some s → (s.dragged = true ↔ j = i)) :
    l.countP (fun s => s.dragged) = 1 := by
  induction l generalizing i with
  | nil => simp at hi
  | cons x xs ih =>
    cases i with
    | zero =>
      have hx : x.dragged = true := (h 0 x (by simp)).mpr rfl
      have hrest : ∀ (j : ℕ) (s : VennGuess), xs[j]? = some s → s.dragged = false := by
        intro j s hj
        have hiff := h (j + 1) s (by simpa using hj)
        cases hsd : s.dragged
        · rfl
        · exact absurd (hiff.mp hsd) (by omega)
      rw [List.countP_cons]
      simp [hx, countP_dragged_eq_zero xs hrest]
    | succ n =>
      have hx : x.dragged = false := by
        have hiff := h 0 x (by simp)
        cases hsd : x.dragged
        · rfl
        · exact absurd (hiff.mp hsd) (by omega)
      have hrest : ∀ (j : ℕ) (s : VennGuess), xs[j]? = some s → (s.dragged = true ↔ j = n) := by
        intro j s hj
        have hiff := h (j + 1) s (by simpa using hj)
        constructor
        · intro hd
          have := hiff.mp hd
          omega
        · intro hj'
          exact hiff.mpr (by omega)
      have hn : n < xs.length := by
        simp only [List.length_cons] at hi
        omega
      rw [List.countP_cons]
      simp [hx, ih n hn hrest]

/-! ### Further helpers for the claims -/

theorem interact_press_some_oob (v : Venn) (input : VennInput) (i : ℕ)
    (hp : input.is_mouse_pressed = true) (hd : v.drag_index = some i)
    (hlen : ¬ i < v.shapes.length) :
    v.interact input = none := by
  simp only [Venn.interact, hp, hd, hlen, if_true, if_false]

theorem interact_release_some_oob (v : Venn) (input : VennInput) (i : ℕ)
    (hp : input.is_mouse_pressed = false) (hd : v.drag_index = some i)
    (hlen : ¬ i < v.shapes.length) :
    v.interact input = none := by
  simp only [Venn.interact, hp, hd, hlen, Bool.false_eq_true, if_true, if_false]

/-- The scene produced by `Venn.load` on the all-zeros randomness stream:
every sampled attribute takes the first variant of its enumeration. -/
def sampleScene : Venn :=
  { left :=
      { center := left_center
        radius := 200
        selected := false
        answer :=
          { width := 100
            height := 80
            center := left_answer_center
            hover := false
            target := { color := VennColor.Yellow, shape := VennShape.Circle,
                        size := VennSize.Small } } }
    right :=
      { center := right_center
        radius := 200
        selected := false
        answer :=
          { width := 100
            height := 80
            center := right_answer_center
            hover := false
            target := { color := VennColor.Yellow, shape := VennShape.Circle,
                        size := VennSize.Small } } }
    shapes := trayShapes
    drag_index := none }

theorem load_zero_eq : Venn.load (fun _ => 0) = some sampleScene := rfl

/-! ### Claim C1 -/

/-- Claim C1 as stated is false: `VennAnswer::matches` conjoins the shape
and the color test, so the slot with target `{Circle, Purple}` rejects the
token target `{Circle, Yellow}` even though the shapes agree. -/
theorem C1_counterexample :
    (VennAnswer.«matches»
        { width := 100, height := 80, center := ⟨0, 0⟩, hover := false
          target := { color := VennColor.Purple, shape := VennShape.Circle,
                      size := VennSize.Small } }
        { color := VennColor.Yellow, shape := VennShape.Circle, size := VennSize.Small }
      = false) ∧
    ({ color := VennColor.Purple, shape := VennShape.Circle,
       size := VennSize.Small : VennTarget }).shape =
      ({ color := VennColor.Yellow, shape := VennShape.Circle,
         size := VennSize.Small : VennTarget }).shape := by
  constructor
  · rfl
  · rfl

/-- Claim C1, amended: an answer slot matches a token target iff the shapes
agree AND the colors agree (a conjunction, unlike the regions' disjunction);
in particular slot target `{Circle, Purple}` against token `{Circle, Yellow}`
is a mismatch. -/
theorem C1_amended_slot_matches (a : VennAnswer) (t : VennTarget) :
    a.«matches» t = true ↔ (a.target.shape = t.shape ∧ a.target.color = t.color) := by
  simp [VennAnswer.«matches»]

theorem C1_witness :
    VennAnswer.«matches»
        { width := 100, height := 80, center := ⟨0, 0⟩, hover := false
          target := { color := VennColor.Blue, shape := VennShape.Circle,
                      size := VennSize.Small } }
        { color := VennColor.Blue, shape := VennShape.Circle, size := VennSize.Large }
      = true ↔
      (VennShape.Circle = VennShape.Circle ∧ VennColor.Blue = VennColor.Blue) :=
  C1_amended_slot_matches
    { width := 100, height := 80, center := ⟨0, 0⟩, hover := false
      target := { color := VennColor.Blue, shape := VennShape.Circle,
                  size := VennSize.Small } }
    { color := VennColor.Blue, shape := VennShape.Circle, size := VennSize.Large }

/-! ### Claim C2 -/

/-- Claim C2 is violated by the code: every `random` constructor draws
`gen_range(0, 2)`, whose value is `n % 2 ∈ {0, 1}`, so the last enumerated
variant (Purple, Triangle, Large) is never produced; the `2 => ...` match
arms are dead code. -/
theorem C2_random_never_last :
    (∀ n : ℕ, VennColor.random n = some VennColor.Yellow ∨
        VennColor.random n = some VennColor.Blue) ∧
    (∀ n : ℕ, VennShape.random n = some VennShape.Circle ∨
        VennShape.random n = some VennShape.Square) ∧
    (∀ n : ℕ, VennSize.random n = some VennSize.Small ∨
        VennSize.random n = some VennSize.Medium) := by
  refine ⟨fun n => ?_, fun n => ?_, fun n => ?_⟩ <;>
    rcases mod_two_cases n with h | h <;>
      simp [VennColor.random, VennShape.random, VennSize.random, genRange, h]

/-! ### Claim C3 -/

/-- The target that `VennCircle::matches` compares the token's target
against (src/main.rs lines 392-400 read `self.answer.target`; `VennCircle`
has no target field of its own). -/
def regionMatchTarget (c : VennCircle) : VennTarget :=
  c.answer.target

/-- Claim C3 as stated is false: in every loaded scene the target consulted
by a region's matching predicate is its answer slot's target, so no
randomness output makes them differ. -/
theorem C3_counterexample :
    ¬ ∃ (rng : ℕ → ℕ) (v : Venn), Venn.load rng = some v ∧
        (regionMatchTarget v.left ≠ v.left.answer.target ∨
          regionMatchTarget v.right ≠ v.right.answer.target) := by
  rintro ⟨rng, v, -, h | h⟩ <;> exact h rfl

/-- Claim C3, amended: a region carries no hidden target of its own; its
matching predicate always reads its answer slot's target, so in every
loaded scene the region's matching target coincides with the slot's and the
region verdict is the OR-of-shape/color rule over that slot target. -/
theorem C3_amended_region_target (rng : ℕ → ℕ) (v : Venn)
    (h : Venn.load rng = some v) (t : VennTarget) :
    regionMatchTarget v.left = v.left.answer.target ∧
    regionMatchTarget v.right = v.right.answer.target ∧
    (v.left.«matches» t = true ↔
      (v.left.answer.target.shape = t.shape ∨ v.left.answer.target.color = t.color)) ∧
    (v.right.«matches» t = true ↔
      (v.right.answer.target.shape = t.shape ∨ v.right.answer.target.color = t.color)) := by
  refine ⟨rfl, rfl, ?_, ?_⟩ <;> simp [VennCircle.«matches»]

theorem C3_witness :
    regionMatchTarget sampleScene.left = sampleScene.left.answer.target ∧
    regionMatchTarget sampleScene.right = sampleScene.right.answer.target ∧
    (sampleScene.left.«matches»
        { color := VennColor.Purple, shape := VennShape.Triangle, size := VennSize.Large }
      = true ↔
      (sampleScene.left.answer.target.shape = VennShape.Triangle ∨
        sampleScene.left.answer.target.color = VennColor.Purple)) ∧
    (sampleScene.right.«matches»
        { color := VennColor.Purple, shape := VennShape.Triangle, size := VennSize.Large }
      = true ↔
      (sampleScene.right.answer.target.shape = VennShape.Triangle ∨
        sampleScene.right.answer.target.color = VennColor.Purple)) :=
  C3_amended_region_target (fun _ => 0) sampleScene load_zero_eq
    { color := VennColor.Purple, shape := VennShape.Triangle, size := VennSize.Large }

/-! ### Claim C4 -/

/-- Claim C4: a region accepts a token target iff the region target's shape
equals the token's shape or the region target's color equals the token's
color; the `size` attribute never influences the verdict. -/
theorem C4_regionMatches (c : VennCircle) (t : VennTarget) :
    (c.«matches» t = true ↔
      (c.answer.target.shape = t.shape ∨ c.answer.target.color = t.color)) ∧
    (∀ t2 : VennTarget, t2.shape = t.shape → t2.color = t.color →
      c.«matches» t2 = c.«matches» t) := by
  constructor
  · simp [VennCircle.«matches»]
  · intro t2 hsh hco
    simp [VennCircle.«matches», hsh, hco]

theorem C4_witness :
    (sampleScene.left.«matches»
        { color := VennColor.Blue, shape := VennShape.Circle, size := VennSize.Small }
      = true ↔
      (sampleScene.left.answer.target.shape = VennShape.Circle ∨
        sampleScene.left.answer.target.color = VennColor.Blue)) ∧
    (VennShape.Circle = VennShape.Circle → VennColor.Blue = VennColor.Blue →
      sampleScene.left.«matches»
          { color := VennColor.Blue, shape := VennShape.Circle, size := VennSize.Large }
        = sampleScene.left.«matches»
          { color := VennColor.Blue, shape := VennShape.Circle, size := VennSize.Small }) := by
  have h := C4_regionMatches sampleScene.left
    { color := VennColor.Blue, shape := VennShape.Circle, size := VennSize.Small }
  exact ⟨h.1, fun _ _ => h.2
    { color := VennColor.Blue, shape := VennShape.Circle, size := VennSize.Large } rfl rfl⟩

/-! ### Claim C6 -/

theorem distSq_nonneg (p q : Point) : 0 ≤ distSq p q :=
  add_nonneg (sq_nonneg _) (sq_nonneg _)

/-- For nonnegative `d` and `r`, comparing the Euclidean distance
`Real.sqrt d` with `r` is the same as comparing `d` with `r ^ 2`; this links
the executable squared comparison with the source's
`nalgebra::distance(point, center) < radius`. -/
theorem sqrt_lt_iff_sq (d r : ℚ) (hd : 0 ≤ d) (hr : 0 ≤ r) :
    Real.sqrt (d : ℝ) < (r : ℝ) ↔ d < r ^ 2 := by
  rcases hr.eq_or_lt with h0 | h0
  · constructor
    · intro h
      exfalso
      have : (0 : ℝ) ≤ Real.sqrt (d : ℝ) := Real.sqrt_nonneg _
      rw [← h0] at h
      simp at h
      exact absurd (lt_of_le_of_lt this h) (lt_irrefl 0)
    · intro h
      exfalso
      rw [← h0] at h
      simp at h
      exact absurd (lt_of_le_of_lt hd h) (lt_irrefl 0)
  · have hr' : (0 : ℝ) < (r : ℝ) := by exact_mod_cast h0
    rw [Real.sqrt_lt' hr']
    constructor
    · intro h
      exact_mod_cast h
    · intro h
      exact_mod_cast h

/-- Claim C6: all containment predicates are strict.  A point at distance
exactly `radius` from a circle's center is outside both token and region
circles; a point on any of a slot rectangle's edge lines is outside the
slot; circle containment is equivalent to `distance < radius` and rectangle
containment to the four strict coordinate bounds. -/
theorem C6_strict_containment (g : VennGuess) (c : VennCircle) (a : VennAnswer)
    (p q : Point) (hg : 0 ≤ g.radius) (hc : 0 ≤ c.radius) :
    (g.contains p = true ↔ Real.sqrt ((distSq p g.center : ℝ)) < (g.radius : ℝ)) ∧
    (c.contains p = true ↔ Real.sqrt ((distSq p c.center : ℝ)) < (c.radius : ℝ)) ∧
    (distSq p g.center = g.radius ^ 2 → g.contains p = false) ∧
    (distSq p c.center = c.radius ^ 2 → c.contains p = false) ∧
    ((q.x = a.center.x - a.width / 2 ∨ q.x = a.center.x + a.width / 2 ∨
        q.y = a.center.y - a.height / 2 ∨ q.y = a.center.y + a.height / 2) →
      a.contains q = false) ∧
    (a.contains q = true ↔
      (a.center.x - a.width / 2 < q.x ∧ q.x < a.center.x + a.width / 2 ∧
        a.center.y - a.height / 2 < q.y ∧ q.y < a.center.y + a.height / 2)) := by
  refine ⟨?_, ?_, ?_, ?_, ?_, ?_⟩
  · rw [sqrt_lt_iff_sq _ _ (distSq_nonneg p g.center) hg]
    simp [VennGuess.contains]
  · rw [sqrt_lt_iff_sq _ _ (distSq_nonneg p c.center) hc]
    simp [VennCircle.contains]
  · intro h
    simp [VennGuess.contains, h]
  · intro h
    simp [VennCircle.contains, h]
  · rintro (hb | hb | hb | hb) <;> simp [VennAnswer.contains, hb, lt_irrefl]
  · simp [VennAnswer.contains, and_assoc]

theorem C6_witness :
    (0 : ℚ) ≤ 5 ∧
    ((VennGuess.contains
        { center := ⟨0, 0⟩, radius := 5, dragged := false
          target := { color := VennColor.Blue, shape := VennShape.Circle,
                      size := VennSize.Small }
          «matches» := none } ⟨3, 4⟩ = true ↔
        Real.sqrt ((distSq ⟨3, 4⟩ ⟨0, 0⟩ : ℝ)) < ((5 : ℚ) : ℝ)) ∧
      (distSq ⟨3, 4⟩ ⟨0, 0⟩ = (5 : ℚ) ^ 2 →
        VennGuess.contains
          { center := ⟨0, 0⟩, radius := 5, dragged := false
            target := { color := VennColor.Blue, shape := VennShape.Circle,
                        size := VennSize.Small }
            «matches» := none } ⟨3, 4⟩ = false)) := by
  have h := C6_strict_containment
    { center := ⟨0, 0⟩, radius := 5, dragged := false
      target := { color := VennColor.Blue, shape := VennShape.Circle,
                  size := VennSize.Small }
      «matches» := none }
    sampleScene.left sampleScene.left.answer ⟨3, 4⟩ ⟨0, 0⟩ (by norm_num)
    (by norm_num [sampleScene])
  exact ⟨by norm_num, h.1, h.2.2.1⟩

/-! ### Claim C5 -/

/-- Claim C5: on a release tick (button up while dragging token `i`), the
evaluator applies the closed five-way case split on the token's final
center: both regions → conjunction of the two region verdicts; left only →
left verdict; right only → right verdict; neither region but exactly one
slot → that slot's verdict with the center snapped to the slot center;
otherwise (neither region and the two slot-membership bits equal, which
covers both slots and outside everything) → verdict cleared and the center
left in place. -/
theorem C5_release_cases (v v' : Venn) (input : VennInput) (i : ℕ) (s : VennGuess)
    (hp : input.is_mouse_pressed = false)
    (hd : v.drag_index = some i)
    (hs : v.shapes[i]? = some s)
    (hi : v.interact input = some v') :
    (v.left.contains s.center = true → v.right.contains s.center = true →
      v'.shapes[i]? = some { s with
        «matches» := some (v.left.«matches» s.target && v.right.«matches» s.target)
        dragged := false }) ∧
    (v.left.contains s.center = true → v.right.contains s.center = false →
      v'.shapes[i]? = some { s with
        «matches» := some (v.left.«matches» s.target)
        dragged := false }) ∧
    (v.left.contains s.center = false → v.right.contains s.center = true →
      v'.shapes[i]? = some { s with
        «matches» := some (v.right.«matches» s.target)
        dragged := false }) ∧
    (v.left.contains s.center = false → v.right.contains s.center = false →
      v.left.answer.contains s.center = true → v.right.answer.contains s.center = false →
      v'.shapes[i]? = some { s with
        «matches» := some (v.left.answer.«matches» s.target)
        center := v.left.answer.center
        dragged := false }) ∧
    (v.left.contains s.center = false → v.right.contains s.center = false →
      v.left.answer.contains s.center = false → v.right.answer.contains s.center = true →
      v'.shapes[i]? = some { s with
        «matches» := some (v.right.answer.«matches» s.target)
        center := v.right.answer.center
        dragged := false }) ∧
    (v.left.contains s.center = false → v.right.contains s.center = false →
      v.left.answer.contains s.center = v.right.answer.contains s.center →
      v'.shapes[i]? = some { s with
        «matches» := none
        dragged := false }) := by
  have hs' := hs
  rw [List.getElem?_eq_some] at hs'
  obtain ⟨hlen, -⟩ := hs'
  rw [interact_release_some v input i hp hd hlen] at hi
  cases hi
  have hkey : (modifyAt v.shapes i
      (fun u => { evalRelease ((v.left.interact input).withHover false)
          ((v.right.interact input).withHover false) u with dragged := false }))[i]?
      = some ({ evalRelease v.left v.right s with dragged := false }) := by
    rw [getElem?_modifyAt_self, hs, Option.map_some']
    rw [evalRelease_withHover_interact v input s]
  refine ⟨?_, ?_, ?_, ?_, ?_, ?_⟩
  · intro hL hR
    rw [hkey]
    simp [evalRelease, hL, hR]
  · intro hL hR
    rw [hkey]
    simp [evalRelease, hL, hR]
  · intro hL hR
    rw [hkey]
    simp [evalRelease, hL, hR]
  · intro hL hR hla hra
    rw [hkey]
    simp [evalRelease, hL, hR, hla, hra]
  · intro hL hR hla hra
    rw [hkey]
    simp [evalRelease, hL, hR, hla, hra]
  · intro hL hR heq
    rw [hkey]
    cases hla : v.left.answer.contains s.center with
    | true => simp [evalRelease, hL, hR, hla, hla ▸ heq.symm]
    | false => simp [evalRelease, hL, hR, hla, hla ▸ heq.symm]

/-! ### Claim C9 -/

/-- Claim C9: on a pointer-down tick in the idle state, the tray is
hit-tested in reverse creation order; the selected token is the
greatest-index token containing the pointer (every later-created token does
not contain it), and it gets verdict `Unset`, `dragged = true`, its center
snapped to the pointer, with the drag index set to its index.  With no hit
the drag index stays clear and no token changes. -/
theorem C9_pointer_down_idle (v v' : Venn) (input : VennInput)
    (hp : input.is_mouse_pressed = true) (hd : v.drag_index = none)
    (hi : v.interact input = some v') :
    (∀ i : ℕ, hitTestRev v.shapes input.cursor_position = some i →
      ∃ s : VennGuess, v.shapes[i]? = some s ∧ s.contains input.cursor_position = true ∧
        (∀ (j : ℕ) (t : VennGuess), i < j → v.shapes[j]? = some t →
          t.contains input.cursor_position = false) ∧
        v'.drag_index = some i ∧
        v'.shapes[i]? = some { s with
          «matches» := none
          dragged := true
          center := input.cursor_position }) ∧
    (hitTestRev v.shapes input.cursor_position = none →
      v'.drag_index = none ∧ v'.shapes = v.shapes) := by
  constructor
  · intro i hh
    rw [interact_press_none_hit v input i hp hd hh] at hi
    cases hi
    obtain ⟨s, hs, hcont⟩ := hitTestRev_contains v.shapes input.cursor_position i hh
    refine ⟨s, hs, hcont, hitTestRev_max v.shapes input.cursor_position i hh, rfl, ?_⟩
    show (modifyAt v.shapes i _)[i]? = _
    rw [getElem?_modifyAt_self, hs, Option.map_some']
    simp [VennGuess.drag_to]
  · intro hh
    rw [interact_press_none_miss v input hp hd hh] at hi
    cases hi
    exact ⟨rfl, rfl⟩

/-! ### Claim C10 -/

/-- Claim C10 (frame condition of a release tick): releasing a drag on token
`i` leaves every other token untouched, preserves the tray's length, clears
the drag index, and leaves both regions' centers, radii and both slots'
geometry and hidden targets unchanged. -/
theorem C10_release_frame (v v' : Venn) (input : VennInput) (i : ℕ)
    (hp : input.is_mouse_pressed = false) (hd : v.drag_index = some i)
    (hi : v.interact input = some v') :
    (∀ j : ℕ, j ≠ i → v'.shapes[j]? = v.shapes[j]?) ∧
    v'.shapes.length = v.shapes.length ∧
    v'.drag_index = none ∧
    v'.left.center = v.left.center ∧ v'.left.radius = v.left.radius ∧
    v'.left.answer.target = v.left.answer.target ∧
    v'.left.answer.center = v.left.answer.center ∧
    v'.left.answer.width = v.left.answer.width ∧
    v'.left.answer.height = v.left.answer.height ∧
    v'.right.center = v.right.center ∧ v'.right.radius = v.right.radius ∧
    v'.right.answer.target = v.right.answer.target ∧
    v'.right.answer.center = v.right.answer.center ∧
    v'.right.answer.width = v.right.answer.width ∧
    v'.right.answer.height = v.right.answer.height := by
  by_cases hlen : i < v.shapes.length
  · rw [interact_release_some v input i hp hd hlen] at hi
    cases hi
    refine ⟨?_, ?_, rfl, ?_, ?_, ?_, ?_, ?_, ?_, ?_, ?_, ?_, ?_, ?_, ?_⟩
    · intro j hj
      exact getElem?_modifyAt_ne v.shapes i j _ hj
    · exact length_modifyAt v.shapes i _
    all_goals simp
  · rw [interact_release_some_oob v input i hp hd hlen] at hi
    cases hi

/-! ### Claim C8 -/

/-- Claim C8: a token's verdict changes only on the tick a drag on it
begins (where it is cleared to `Unset`) or on the tick that drag is
released; on every other tick — in particular every movement tick — the
verdict is untouched. -/
theorem C8_verdict_change_ticks (v v' : Venn) (input : VennInput) (j : ℕ)
    (s s' : VennGuess)
    (hi : v.interact input = some v')
    (hs : v.shapes[j]? = some s) (hs' : v'.shapes[j]? = some s') :
    (input.is_mouse_pressed = true → v.drag_index = none →
      hitTestRev v.shapes input.cursor_position = some j → s'.«matches» = none) ∧
    (¬ (input.is_mouse_pressed = true ∧ v.drag_index = none ∧
        hitTestRev v.shapes input.cursor_position = some j) →
      ¬ (input.is_mouse_pressed = false ∧ v.drag_index = some j) →
      s'.«matches» = s.«matches») := by
  by_cases hp : input.is_mouse_pressed = true
  · cases hd : v.drag_index with
    | none =>
      cases hh : hitTestRev v.shapes input.cursor_position with
      | some k =>
        rw [interact_press_none_hit v input k hp hd hh] at hi
        cases hi
        by_cases hkj : j = k
        · subst hkj
          constructor
          · intro _ _ _
            rw [getElem?_modifyAt_self, hs, Option.map_some'] at hs'
            cases hs'
            rfl
          · intro hnot _
            exact absurd ⟨hp, rfl, rfl⟩ hnot
        · constructor
          · intro _ _ hj'
            cases hj'
            exact absurd rfl hkj
          · intro _ _
            rw [getElem?_modifyAt_ne v.shapes k j _ hkj, hs] at hs'
            cases hs'
            rfl
      | none =>
        rw [interact_press_none_miss v input hp hd hh] at hi
        cases hi
        constructor
        · intro _ _ hj'
          cases hj'
        · intro _ _
          rw [hs] at hs'
          cases hs'
          rfl
    | some k =>
      by_cases hlen : k < v.shapes.length
      · rw [interact_press_some v input k hp hd hlen] at hi
        cases hi
        constructor
        · intro _ hd0 _
          cases hd0
        · intro _ _
          by_cases hkj : j = k
          · subst hkj
            rw [getElem?_modifyAt_self, hs, Option.map_some'] at hs'
            cases hs'
            rfl
          · rw [getElem?_modifyAt_ne v.shapes k j _ hkj, hs] at hs'
            cases hs'
            rfl
      · rw [interact_press_some_oob v input k hp hd hlen] at hi
        cases hi
  · have hp' : input.is_mouse_pressed = false := by
      cases hb : input.is_mouse_pressed
      · rfl
      · exact absurd hb hp
    cases hd : v.drag_index with
    | none =>
      rw [interact_release_none v input hp' hd] at hi
      cases hi
      constructor
      · intro hpt _ _
        exact absurd hpt hp
      · intro _ _
        rw [hs] at hs'
        cases hs'
        rfl
    | some k =>
      by_cases hlen : k < v.shapes.length
      · rw [interact_release_some v input k hp' hd hlen] at hi
        cases hi
        constructor
        · intro hpt _ _
          exact absurd hpt hp
        · intro _ hnot
          by_cases hkj : j = k
          · exfalso
            apply hnot
            subst hkj
            exact ⟨hp', rfl⟩
          · rw [getElem?_modifyAt_ne v.shapes k j _ hkj, hs] at hs'
            cases hs'
            rfl
      · rw [interact_release_some_oob v input k hp' hd hlen] at hi
        cases hi

/-! ### Claim C7 -/

/-- Claim C7: in every state reachable from a loaded scene by any sequence
of `interact` ticks, the number of dragged tokens is 0 or 1; it is 1 exactly
when the drag index is set; and when the drag index is `some i`, token `i`
is the dragged one. -/
theorem C7_single_drag_invariant (rng : ℕ → ℕ) (inputs : List VennInput) (v : Venn)
    (h : (Venn.load rng).bind (fun v0 => stepAll v0 inputs) = some v) :
    (v.shapes.countP (fun s => s.dragged) = 0 ∨
      v.shapes.countP (fun s => s.dragged) = 1) ∧
    (v.shapes.countP (fun s => s.dragged) = 1 ↔ v.drag_index.isSome = true) ∧
    (∀ i : ℕ, v.drag_index = some i →
      ∃ s : VennGuess, v.shapes[i]? = some s ∧ s.dragged = true) := by
  cases hload : Venn.load rng with
  | none =>
    rw [hload] at h
    cases h
  | some v0 =>
    rw [hload] at h
    simp only [Option.some_bind] at h
    have hv : dragInv v := stepAll_dragInv inputs v0 v (load_dragInv rng v0 hload) h
    cases hd : v.drag_index with
    | none =>
      have h0 := hv
      simp only [dragInv, hd] at h0
      have hc := countP_dragged_eq_zero v.shapes h0
      refine ⟨Or.inl hc, ?_, ?_⟩
      · simp [hc]
      · intro i hdi
        cases hdi
    | some i =>
      have h0 := hv
      simp only [dragInv, hd] at h0
      obtain ⟨hlen, hiff⟩ := h0
      have hc := countP_dragged_eq_one v.shapes i hlen hiff
      refine ⟨Or.inr hc, by simp [hc], ?_⟩
      intro k hk
      cases hk
      exact ⟨v.shapes[i],
        List.getElem?_eq_getElem hlen,
        (hiff i v.shapes[i] (List.getElem?_eq_getElem hlen)).mpr rfl⟩

theorem C7_witness :
    ((Venn.load (fun _ => 0)).bind (fun v0 => stepAll v0 []) = some sampleScene) ∧
    ((sampleScene.shapes.countP (fun s => s.dragged) = 0 ∨
        sampleScene.shapes.countP (fun s => s.dragged) = 1) ∧
      (sampleScene.shapes.countP (fun s => s.dragged) = 1 ↔
        sampleScene.drag_index.isSome = true) ∧
      (∀ i : ℕ, sampleScene.drag_index = some i →
        ∃ s : VennGuess, sampleScene.shapes[i]? = some s ∧ s.dragged = true)) := by
  have hbind : (Venn.load (fun _ => 0)).bind (fun v0 => stepAll v0 []) = some sampleScene := by
    rw [load_zero_eq]
    rfl
  exact ⟨hbind, C7_single_drag_invariant (fun _ => 0) [] sampleScene hbind⟩

/-! ### Concrete scenes for the remaining witnesses -/

/-- A small concrete scene: one token held at the origin, inside the left
region only; used to witness the release-tick theorems. -/
def relToken : VennGuess :=
  { center := ⟨0, 0⟩
    radius := 3
    dragged := true
    target := { color := VennColor.Yellow, shape := VennShape.Circle, size := VennSize.Small }
    «matches» := none }

def releaseScene : Venn :=
  { left :=
      { center := ⟨0, 0⟩
        radius := 10
        selected := false
        answer :=
          { width := 10, height := 10, center := ⟨0, -50⟩, hover := false
            target := { color := VennColor.Blue, shape := VennShape.Circle,
                        size := VennSize.Small } } }
    right :=
      { center := ⟨100, 0⟩
        radius := 10
        selected := false
        answer :=
          { width := 10, height := 10, center := ⟨100, -50⟩, hover := false
            target := { color := VennColor.Blue, shape := VennShape.Square,
                        size := VennSize.Small } } }
    shapes := [relToken]
    drag_index := some 0 }

def relInput : VennInput :=
  { cursor_position := ⟨0, 0⟩, is_cursor_taken := false, is_mouse_pressed := false }

/-- The scene after the release tick, as produced by `interact`. -/
def releaseRes : Venn :=
  { left := (releaseScene.left.interact relInput).withHover false
    right := (releaseScene.right.interact relInput).withHover false
    shapes := modifyAt releaseScene.shapes 0
      (fun s => { evalRelease ((releaseScene.left.interact relInput).withHover false)
          ((releaseScene.right.interact relInput).withHover false) s with dragged := false })
    drag_index := none }

theorem releaseScene_step : releaseScene.interact relInput = some releaseRes :=
  interact_release_some releaseScene relInput 0 rfl rfl (by decide)

theorem C5_witness :
    relInput.is_mouse_pressed = false ∧
    releaseScene.drag_index = some 0 ∧
    releaseScene.shapes[0]? = some relToken ∧
    releaseScene.left.contains relToken.center = true ∧
    releaseScene.right.contains relToken.center = false ∧
    releaseRes.shapes[0]? = some { relToken with
      «matches» := some (releaseScene.left.«matches» relToken.target)
      dragged := false } := by
  have hL : releaseScene.left.contains relToken.center = true := by
    norm_num [releaseScene, relToken, VennCircle.contains, distSq]
  have hR : releaseScene.right.contains relToken.center = false := by
    norm_num [releaseScene, relToken, VennCircle.contains, distSq]
  have h := C5_release_cases releaseScene releaseRes relInput 0 relToken rfl rfl rfl
    releaseScene_step
  exact ⟨rfl, rfl, rfl, hL, hR, h.2.1 hL hR⟩

theorem C10_witness :
    relInput.is_mouse_pressed = false ∧
    releaseScene.drag_index = some 0 ∧
    ((∀ j : ℕ, j ≠ 0 → releaseRes.shapes[j]? = releaseScene.shapes[j]?) ∧
      releaseRes.shapes.length = releaseScene.shapes.length ∧
      releaseRes.drag_index = none ∧
      releaseRes.left.center = releaseScene.left.center ∧
      releaseRes.left.radius = releaseScene.left.radius ∧
      releaseRes.left.answer.target = releaseScene.left.answer.target ∧
      releaseRes.left.answer.center = releaseScene.left.answer.center ∧
      releaseRes.left.answer.width = releaseScene.left.answer.width ∧
      releaseRes.left.answer.height = releaseScene.left.answer.height ∧
      releaseRes.right.center = releaseScene.right.center ∧
      releaseRes.right.radius = releaseScene.right.radius ∧
      releaseRes.right.answer.target = releaseScene.right.answer.target ∧
      releaseRes.right.answer.center = releaseScene.right.answer.center ∧
      releaseRes.right.answer.width = releaseScene.right.answer.width ∧
      releaseRes.right.answer.height = releaseScene.right.answer.height) :=
  ⟨rfl, rfl, C10_release_frame releaseScene releaseRes relInput 0 rfl rfl releaseScene_step⟩

def moveInput : VennInput :=
  { cursor_position := ⟨50, 0⟩, is_cursor_taken := false, is_mouse_pressed := true }

/-- The scene after one movement tick on `releaseScene`. -/
def moveRes : Venn :=
  { left := (releaseScene.left.interact moveInput).withHover
      ((releaseScene.left.interact moveInput).answer.contains moveInput.cursor_position)
    right := (releaseScene.right.interact moveInput).withHover
      ((releaseScene.right.interact moveInput).answer.contains moveInput.cursor_position)
    shapes := modifyAt releaseScene.shapes 0 (fun s => s.drag_to moveInput.cursor_position)
    drag_index := some 0 }

theorem moveScene_step : releaseScene.interact moveInput = some moveRes :=
  interact_press_some releaseScene moveInput 0 rfl rfl (by decide)

theorem C8_witness :
    (moveInput.is_mouse_pressed = true → releaseScene.drag_index = none →
      hitTestRev releaseScene.shapes moveInput.cursor_position = some 0 →
      (relToken.drag_to ⟨50, 0⟩).«matches» = none) ∧
    (¬ (moveInput.is_mouse_pressed = true ∧ releaseScene.drag_index = none ∧
        hitTestRev releaseScene.shapes moveInput.cursor_position = some 0) →
      ¬ (moveInput.is_mouse_pressed = false ∧ releaseScene.drag_index = some 0) →
      (relToken.drag_to ⟨50, 0⟩).«matches» = relToken.«matches») :=
  C8_verdict_change_ticks releaseScene moveRes moveInput 0 relToken
    (relToken.drag_to ⟨50, 0⟩) moveScene_step rfl rfl

/-- An idle variant of the small scene: the token is not dragged, carries a
stale verdict, and no drag is active. -/
def idleToken : VennGuess :=
  { center := ⟨0, 0⟩
    radius := 3
    dragged := false
    target := { color := VennColor.Yellow, shape := VennShape.Circle, size := VennSize.Small }
    «matches» := some false }

def idleScene : Venn :=
  { left := releaseScene.left
    right := releaseScene.right
    shapes := [idleToken]
    drag_index := none }

def pressInput : VennInput :=
  { cursor_position := ⟨1, 0⟩, is_cursor_taken := false, is_mouse_pressed := true }

/-- The scene after the pointer-down tick on `idleScene`. -/
def pressRes : Venn :=
  { left := (idleScene.left.interact pressInput).withHover
      ((idleScene.left.interact pressInput).answer.contains pressInput.cursor_position)
    right := (idleScene.right.interact pressInput).withHover
      ((idleScene.right.interact pressInput).answer.contains pressInput.cursor_position)
    shapes := modifyAt idleScene.shapes 0
      (fun s => VennGuess.drag_to { s with «matches» := none } pressInput.cursor_position)
    drag_index := some 0 }

theorem idleScene_hit : hitTestRev idleScene.shapes pressInput.cursor_position = some 0 := by
  norm_num [hitTestRev, idleScene, idleToken, pressInput, VennGuess.contains, distSq]

theorem C9_witness :
    pressInput.is_mouse_pressed = true ∧
    idleScene.drag_index = none ∧
    hitTestRev idleScene.shapes pressInput.cursor_position = some 0 ∧
    pressRes.drag_index = some 0 ∧
    pressRes.shapes[0]? = some { idleToken with
      «matches» := none
      dragged := true
      center := pressInput.cursor_position } := by
  have hi : idleScene.interact pressInput = some pressRes :=
    interact_press_none_hit idleScene pressInput 0 rfl rfl idleScene_hit
  have h := C9_pointer_down_idle idleScene pressRes pressInput rfl rfl hi
  obtain ⟨s, hs, -, -, hidx, hupd⟩ := h.1 0 idleScene_hit
  have hsi : s = idleToken := by
    have : (some idleToken : Option VennGuess) = some s := hs
    cases this
    rfl
  subst hsi
  exact ⟨rfl, rfl, idleScene_hit, hidx, hupd⟩
